import Mathlib

/-!
Verification of the political-rag ingestion pipeline against its
natural-language specification.  The Python sources are shallowly embedded:
pure functions (`Chunker.chunk_text`, the `Tagger` parsing and confidence
logic, `Embedder.generate_batch_embeddings`) become Lean functions; the
database session and the language/embedding model calls become explicit
environments (`SourcesStore`, `PipelineEnv`) threaded through the
definitions.  Python strings are modelled through their character lists, so
that every definition evaluates on concrete inputs by kernel reduction.
-/

namespace PoliticalRag

/-! ## String primitives (Python `str.strip`, `str.split`, slicing) -/

/-- Python `str.strip()`: drop whitespace from both ends of the character
list. -/
def trimChars (l : List Char) : List Char :=
  ((l.dropWhile Char.isWhitespace).reverse.dropWhile Char.isWhitespace).reverse

/-- Splits a character list at every character satisfying `p`, like Python
`re.split` over a single-character class.  Consecutive separators produce
empty pieces, which every caller filters away, matching the `+` in the
source regex after that filter. -/
def splitOnPred (p : Char → Bool) : List Char → List Char → List (List Char)
  | [], acc => [acc.reverse]
  | c :: cs, acc =>
      if p c then acc.reverse :: splitOnPred p cs []
      else splitOnPred p cs (c :: acc)

/-- Length of the trimmed text, Python `len(s.strip())`. -/
def trimmedLength (s : String) : Nat :=
  (trimChars s.data).length

/-! ## Text Segmenter (src/processors/chunker.py) -/

/-- Characters the sentence splitter treats as sentence-terminal.
Mirrors the character class of the `re.split` call in
`Chunker._split_sentences`; the three non-ASCII members are the Cyrillic
letters U+0440, U+0435, U+0434 that appear literally in the source file. -/
def isSentenceSep (c : Char) : Bool :=
  c == 'р' || c == 'е' || c == 'д' || c == '.' || c == '!' || c == '?'

/-- Embedding of `Chunker._split_sentences`: split on terminal characters,
strip each piece, keep nonempty pieces. -/
def splitSentences (text : String) : List String :=
  ((splitOnPred isSentenceSep text.data []).map (fun l => String.mk (trimChars l))).filter
    (fun s => s != "")

/-- Word count in the sense of Python `len(s.split())`: whitespace-separated
nonempty words. -/
def countWords (s : String) : Nat :=
  ((splitOnPred Char.isWhitespace s.data []).filter (fun w => w ≠ [])).length

/-- One chunk record as built by `Chunker.chunk_text`. -/
structure ChunkRec where
  source_id : String
  seq : Nat
  text : String
  word_count : Nat
deriving DecidableEq

/-- Builds the dict appended to `chunks` in `Chunker.chunk_text`: text is
the sentences joined by single spaces, `word_count` is recomputed from the
joined text. -/
def mkChunk (sourceId : String) (seq : Nat) (sentences : List String) : ChunkRec :=
  let t := String.intercalate " " sentences
  { source_id := sourceId, seq := seq, text := t, word_count := countWords t }

/-- Embedding of `current_chunk[-2:] if len(current_chunk) >= 2 else
current_chunk`. -/
def overlapSentences (current : List String) : List String :=
  if current.length ≥ 2 then current.drop (current.length - 2) else current

/-- The sentence-accumulation loop of `Chunker.chunk_text`, with state
(current chunk sentences, current word length, next seq). -/
def chunkLoop (chunkSize : Nat) (sourceId : String) :
    List String → List String → Nat → Nat → List ChunkRec
  | [], current, _, seq =>
      if current = [] then [] else [mkChunk sourceId seq current]
  | s :: rest, current, currentLength, seq =>
      let sentenceLength := countWords s
      if currentLength + sentenceLength > chunkSize ∧ current ≠ [] then
        let newCurrent := overlapSentences current ++ [s]
        mkChunk sourceId seq current ::
          chunkLoop chunkSize sourceId rest newCurrent
            ((newCurrent.map countWords).sum) (seq + 1)
      else
        chunkLoop chunkSize sourceId rest (current ++ [s])
          (currentLength + sentenceLength) seq

/-- Embedding of `Chunker.chunk_text`. -/
def chunk_text (chunkSize : Nat) (text : String) (sourceId : String) : List ChunkRec :=
  if text = "" ∨ trimmedLength text < 50 then []
  else chunkLoop chunkSize sourceId (splitSentences text) [] 0 0

/-- Three sentences of two words each: the scenario of the spec's
three-sentence end-to-end test, with `chunk_size = 4`. -/
def t3 : String := "aaaaaaaa bbbbbbbb. cccccccc dddddddd. eeeeeeee ffffffff."

/-- Three sentences of three words each, each shorter than `chunk_size = 4`. -/
def t10 : String := "aaaaaa bbbbbb cccccc. dddddd eeeeee ffffff. gggggg hhhhhh iiiiii."

/-! ## Theorems about the Text Segmenter -/

theorem chunkLoop_map_seq (chunkSize : Nat) (sourceId : String) :
    ∀ (sentences current : List String) (currentLength seq : Nat),
      (chunkLoop chunkSize sourceId sentences current currentLength seq).map ChunkRec.seq =
        List.range' seq
          (chunkLoop chunkSize sourceId sentences current currentLength seq).length := by
  intro sentences
  induction sentences with
  | nil =>
      intro current currentLength seq
      simp only [chunkLoop]
      split
      · simp
      · simp [List.range', mkChunk]
  | cons s rest ih =>
      intro current currentLength seq
      simp only [chunkLoop]
      split
      · simp only [List.map_cons, List.length_cons, ih, List.range'_succ, mkChunk]
      · exact ih _ _ _

theorem chunkLoop_word_count (chunkSize : Nat) (sourceId : String) :
    ∀ (sentences current : List String) (currentLength seq : Nat),
      ∀ c ∈ chunkLoop chunkSize sourceId sentences current currentLength seq,
        c.word_count = countWords c.text := by
  intro sentences
  induction sentences with
  | nil =>
      intro current currentLength seq c hc
      simp only [chunkLoop] at hc
      split at hc
      · simp at hc
      · simp only [List.mem_singleton] at hc
        subst hc; rfl
  | cons s rest ih =>
      intro current currentLength seq c hc
      simp only [chunkLoop] at hc
      split at hc
      · rcases List.mem_cons.mp hc with hc | hc
        · subst hc; rfl
        · exact ih _ _ _ c hc
      · exact ih _ _ _ c hc

/-- C4: for every input text that produces at least one chunk, the emitted
chunks' `seq` values are exactly `0..n-1` in emission order with no gaps,
and every emitted chunk's `word_count` equals the number of
whitespace-separated words of its `text`. -/
theorem chunk_text_seq_contiguous_and_word_count (chunkSize : Nat) (text sourceId : String)
    (_h : chunk_text chunkSize text sourceId ≠ []) :
    (chunk_text chunkSize text sourceId).map ChunkRec.seq =
      List.range (chunk_text chunkSize text sourceId).length ∧
    ∀ c ∈ chunk_text chunkSize text sourceId, c.word_count = countWords c.text := by
  constructor
  · rw [List.range_eq_range']
    unfold chunk_text
    split
    · simp
    · exact chunkLoop_map_seq chunkSize sourceId _ _ _ _
  · unfold chunk_text
    split
    · simp
    · exact chunkLoop_word_count chunkSize sourceId _ _ _ _

/-- Witness for C4 at the concrete three-sentence input `t3`. -/
theorem chunk_text_seq_contiguous_and_word_count_witness :
    (chunk_text 4 t3 "s").map ChunkRec.seq = List.range (chunk_text 4 t3 "s").length ∧
    ∀ c ∈ chunk_text 4 t3 "s", c.word_count = countWords c.text :=
  chunk_text_seq_contiguous_and_word_count 4 t3 "s" (by decide)

/-- C3 counterexample: on three two-word sentences with `chunk_size = 4`
(the split is forced by sentence 3), the segmenter emits two chunks whose
second chunk contains all three sentences (a two-sentence overlap), not
sentences 2 and 3 as the claim states. -/
theorem three_sentence_chunks_cex :
    splitSentences t3 = ["aaaaaaaa bbbbbbbb", "cccccccc dddddddd", "eeeeeeee ffffffff"] ∧
    (chunk_text 4 t3 "s").map ChunkRec.seq = [0, 1] ∧
    (chunk_text 4 t3 "s").map ChunkRec.text =
      ["aaaaaaaa bbbbbbbb cccccccc dddddddd",
       "aaaaaaaa bbbbbbbb cccccccc dddddddd eeeeeeee ffffffff"] ∧
    (chunk_text 4 t3 "s").map ChunkRec.text ≠
      ["aaaaaaaa bbbbbbbb cccccccc dddddddd",
       "cccccccc dddddddd eeeeeeee ffffffff"] := by decide

/-- C3 amended: for an input of exactly 3 sentences whose first two fit in a
chunk but whose third overflows it, segmentation emits exactly 2 chunks with
seq 0 and 1: chunk 0 holds sentences 1-2 and chunk 1 holds sentences 1-3,
because the overlap seed is the last TWO sentences of the closed chunk. -/
theorem three_sentence_split_two_sentence_overlap (chunkSize : Nat)
    (text sid s1 s2 s3 : String)
    (hsplit : splitSentences text = [s1, s2, s3])
    (hne : text ≠ "") (hlen : ¬ trimmedLength text < 50)
    (h12 : ¬ countWords s1 + countWords s2 > chunkSize)
    (h123 : countWords s1 + countWords s2 + countWords s3 > chunkSize) :
    chunk_text chunkSize text sid =
      [mkChunk sid 0 [s1, s2], mkChunk sid 1 [s1, s2, s3]] := by
  unfold chunk_text
  rw [if_neg (by push_neg; exact ⟨hne, Nat.le_of_not_lt hlen⟩), hsplit]
  simp only [chunkLoop]
  rw [if_neg (by simp)]
  simp only [List.nil_append, Nat.zero_add]
  rw [if_neg (fun hc => h12 hc.1)]
  rw [if_pos ⟨h123, by simp⟩]
  simp [overlapSentences, chunkLoop]

/-- Witness for the amended C3 at the concrete input `t3`. -/
theorem three_sentence_split_two_sentence_overlap_witness :
    chunk_text 4 t3 "s" =
      [mkChunk "s" 0 ["aaaaaaaa bbbbbbbb", "cccccccc dddddddd"],
       mkChunk "s" 1 ["aaaaaaaa bbbbbbbb", "cccccccc dddddddd", "eeeeeeee ffffffff"]] :=
  three_sentence_split_two_sentence_overlap 4 t3 "s"
    "aaaaaaaa bbbbbbbb" "cccccccc dddddddd" "eeeeeeee ffffffff"
    (by decide) (by decide) (by decide) (by decide) (by decide)

/-- C10: the configured `chunk_size` is not an upper bound on emitted chunk
sizes: on `t10` every sentence has fewer than 4 words, yet with
`chunk_size = 4` some emitted chunk's `word_count` exceeds 4. -/
theorem chunk_size_not_upper_bound :
    ((splitSentences t10).all (fun s => decide (countWords s < 4))) = true ∧
    ((chunk_text 4 t10 "s").any (fun c => decide (4 < c.word_count))) = true := by
  decide

/-! ## Structured Tagger (src/processors/tagger.py)

Scores are modelled as rationals; every score arithmetic the claims touch
(means of 0.5 values) is exact, so the model agrees with the Python floats.
The JSON decoder is an environment parameter `decode`; a decode failure is
`decode _ = none`, matching the `json.JSONDecodeError` branch. -/

/-- One polarity object (`leadership_polarity` / `sentiment`): a polarity
label, an optional score (the Python dict may lack the `score` key) and an
optional reasoning text. -/
structure PolarityScore where
  polarity : String
  score : Option ℚ
  reasoning : Option String
deriving DecidableEq

/-- The tagging result dict.  `confidence` is `none` until `tag_chunk`
assigns it (the decoded LLM JSON carries no confidence key). -/
structure TagsData where
  domain : String
  issues : List String
  cohorts : List String
  actors : List String
  leadership_polarity : Option PolarityScore
  frame : String
  sentiment : Option PolarityScore
  actionability : List String
  confidence : Option ℚ
deriving DecidableEq

/-- Embedding of `Tagger._get_default_tags`. -/
def get_default_tags : TagsData where
  domain := "governance"
  issues := []
  cohorts := []
  actors := []
  leadership_polarity := some ⟨"neutral", some (1/2), some "Unable to determine"⟩
  frame := "service_delivery"
  sentiment := some ⟨"neutral", some (1/2), none⟩
  actionability := []
  confidence := some (3/10)

/-- Embedding of `Tagger._calculate_confidence`: collect the leadership
and sentiment scores (0.5 when the `score` key is absent), 0.8 for
nonempty issues and 0.8 for nonempty cohorts, and average; 0.5 when no
score was collected. -/
def calculate_confidence (tagsData : TagsData) : ℚ :=
  let scores : List ℚ :=
    (match tagsData.leadership_polarity with
      | some lp => [lp.score.getD (1/2)]
      | none => []) ++
    (match tagsData.sentiment with
      | some st => [st.score.getD (1/2)]
      | none => []) ++
    (if tagsData.issues ≠ [] then [(8 : ℚ)/10] else []) ++
    (if tagsData.cohorts ≠ [] then [(8 : ℚ)/10] else [])
  if scores ≠ [] then scores.sum / (scores.length : ℚ) else 1/2

/-- Backquote character, U+0060. -/
def backquote : Char := Char.ofNat 96

/-- The markdown code-fence delimiter, three backquotes. -/
def fenceChars : List Char := [backquote, backquote, backquote]

/-- The characters before the next code fence.  When the response starts
with a fence this computes element 1 of the Python `split` of the text on
the fence delimiter: everything after the leading fence up to the next
fence or the end. -/
def takeUntilFence : List Char → List Char
  | [] => []
  | c :: cs => if fenceChars.isPrefixOf (c :: cs) then [] else c :: takeUntilFence cs

/-- Embedding of the fence-stripping prefix of `Tagger._parse_llm_response`:
strip the text, then if it starts with a fence keep only the first fenced
segment, and drop a leading `json` marker. -/
def stripFences (responseText : String) : String :=
  let t := trimChars responseText.data
  if fenceChars.isPrefixOf t then
    let t := takeUntilFence (t.drop 3)
    if "json".data.isPrefixOf t then String.mk (t.drop 4) else String.mk t
  else String.mk t

/-- Embedding of `Tagger._parse_llm_response`: decode the stripped text,
falling back to the default tags on a JSON decode failure. -/
def parse_llm_response (decode : String → Option TagsData) (responseText : String) :
    TagsData :=
  match decode (stripFences responseText) with
  | some tagsData => tagsData
  | none => get_default_tags

/-- Embedding of `Tagger.tag_chunk`: on a model-call failure return the
default tags; otherwise parse the response and overwrite `confidence` with
the recomputed score. -/
def tag_chunk (decode : String → Option TagsData)
    (modelResponse : Except String String) : TagsData :=
  match modelResponse with
  | .error _ => get_default_tags
  | .ok responseText =>
      let tagsData := parse_llm_response decode responseText
      { tagsData with confidence := some (calculate_confidence tagsData) }

/-- C2 (code bug): for every model response whose text fails JSON decoding,
`tag_chunk` returns the default result except that `confidence` comes out
as 1/2, not the claimed 0.3: the `confidence = 0.3` assigned in
`_get_default_tags` is unconditionally overwritten by
`_calculate_confidence`, which averages the two default 0.5 scores. -/
theorem tag_chunk_decode_failure_confidence (decode : String → Option TagsData)
    (responseText : String)
    (h : decode (stripFences responseText) = none) :
    tag_chunk decode (Except.ok responseText) =
      { get_default_tags with confidence := some (1/2) } ∧
    (1 : ℚ)/2 ≠ 3/10 := by
  constructor
  · simp only [tag_chunk, parse_llm_response, h]
    simp only [calculate_confidence, get_default_tags]
    norm_num
  · norm_num

/-- Witness for C2 at a concrete undecodable response. -/
theorem tag_chunk_decode_failure_confidence_witness :
    tag_chunk (fun _ => none) (Except.ok "not valid json") =
      { get_default_tags with confidence := some (1/2) } ∧
    (1 : ℚ)/2 ≠ 3/10 :=
  tag_chunk_decode_failure_confidence (fun _ => none) "not valid json" rfl

/-! ## Embedding Generator (src/processors/embedder.py)

The outbound embedding-model call is an environment function
`embedOne : String → Option (List ℚ)`; `none` stands for a raised and
caught call.  `generate_batch_embeddings` returns the embeddings together
with the number of `time.sleep` calls performed. -/

/-- Embedding of `Embedder.generate_embedding`: reject trimmed text under
10 characters, truncate over 10000 characters, then call the model. -/
def generate_embedding (embedOne : String → Option (List ℚ)) (text : String) :
    Option (List ℚ) :=
  if text = "" ∨ trimmedLength text < 10 then none
  else
    let text := if text.length > 10000 then String.mk (text.data.take 10000) else text
    embedOne text

/-- Embedding of `Embedder.generate_batch_embeddings`: process
`texts[i:i+100]` slices in order, sleeping after each slice for which
`i + 100 < len(texts)`.  The second component counts the sleeps. -/
def generate_batch_embeddings (embedOne : String → Option (List ℚ))
    (texts : List String) : List (Option (List ℚ)) × Nat :=
  match h : texts with
  | [] => ([], 0)
  | _ :: _ =>
      let batch := texts.take 100
      let rest := texts.drop 100
      let res := generate_batch_embeddings embedOne rest
      (batch.map (generate_embedding embedOne) ++ res.1,
       (if rest.isEmpty then 0 else 1) + res.2)
termination_by texts.length
decreasing_by simp [h]; omega

/-- The `texts[i:i+100]` slices visited by the batch loop, in order. -/
def batchGroups (texts : List String) : List (List String) :=
  match h : texts with
  | [] => []
  | _ :: _ => texts.take 100 :: batchGroups (texts.drop 100)
termination_by texts.length
decreasing_by simp [h]; omega

/-! ## Theorems about the Embedding Generator -/

theorem batchGroups_length :
    ∀ (n : Nat) (texts : List String), texts.length ≤ n →
      (batchGroups texts).length = (texts.length + 99) / 100 := by
  intro n
  induction n with
  | zero =>
      intro texts hlen
      have : texts = [] := List.length_eq_zero.mp (Nat.le_zero.mp hlen)
      subst this
      rw [batchGroups]
      simp
  | succ n ih =>
      intro texts hlen
      match texts with
      | [] => rw [batchGroups]; simp
      | t :: ts =>
          rw [batchGroups]
          have hdrop : ((t :: ts).drop 100).length = (t :: ts).length - 100 :=
            List.length_drop 100 (t :: ts)
          have hrec := ih ((t :: ts).drop 100) (by simp at hlen ⊢; omega)
          rw [List.length_cons, hrec, hdrop]
          simp only [List.length_cons]
          omega

theorem batchGroups_le100 :
    ∀ (n : Nat) (texts : List String), texts.length ≤ n →
      ∀ g ∈ batchGroups texts, g.length ≤ 100 := by
  intro n
  induction n with
  | zero =>
      intro texts hlen g hg
      have : texts = [] := List.length_eq_zero.mp (Nat.le_zero.mp hlen)
      subst this
      rw [batchGroups] at hg
      simp at hg
  | succ n ih =>
      intro texts hlen g hg
      match texts with
      | [] => rw [batchGroups] at hg; simp at hg
      | t :: ts =>
          rw [batchGroups] at hg
          rcases List.mem_cons.mp hg with hg | hg
          · subst hg
            simp
          · exact ih ((t :: ts).drop 100) (by simp at hlen ⊢; omega) g hg

theorem batchGroups_flatten :
    ∀ (n : Nat) (texts : List String), texts.length ≤ n →
      (batchGroups texts).flatten = texts := by
  intro n
  induction n with
  | zero =>
      intro texts hlen
      have : texts = [] := List.length_eq_zero.mp (Nat.le_zero.mp hlen)
      subst this
      rw [batchGroups]
      rfl
  | succ n ih =>
      intro texts hlen
      match texts with
      | [] => rw [batchGroups]; rfl
      | t :: ts =>
          rw [batchGroups]
          rw [List.flatten_cons, ih ((t :: ts).drop 100) (by simp at hlen ⊢; omega)]
          exact List.take_append_drop 100 (t :: ts)

theorem generate_batch_embeddings_spec (embedOne : String → Option (List ℚ)) :
    ∀ (n : Nat) (texts : List String), texts.length ≤ n →
      (generate_batch_embeddings embedOne texts).1 =
        texts.map (generate_embedding embedOne) ∧
      (generate_batch_embeddings embedOne texts).2 =
        (if texts = [] then 0 else (texts.length + 99) / 100 - 1) := by
  intro n
  induction n with
  | zero =>
      intro texts hlen
      have : texts = [] := List.length_eq_zero.mp (Nat.le_zero.mp hlen)
      subst this
      rw [generate_batch_embeddings]
      simp
  | succ n ih =>
      intro texts hlen
      match texts with
      | [] => rw [generate_batch_embeddings]; simp
      | t :: ts =>
          rw [generate_batch_embeddings]
          have hrec := ih ((t :: ts).drop 100) (by simp at hlen ⊢; omega)
          constructor
          · rw [hrec.1, ← List.map_append, List.take_append_drop]
          · rw [hrec.2]
            rw [if_neg (List.cons_ne_nil t ts)]
            by_cases hc : (t :: ts).drop 100 = []
            · rw [if_pos hc, hc]
              have h100 : (t :: ts).length ≤ 100 := List.drop_eq_nil_iff.mp hc
              simp only [List.isEmpty_nil, if_true, List.length_cons]
              simp only [List.length_cons] at h100
              omega
            · rw [if_neg hc]
              have hne : ((t :: ts).drop 100).isEmpty = false := by
                cases hd : (t :: ts).drop 100
                · exact absurd hd hc
                · rfl
              rw [hne]
              have h100 : ¬ (t :: ts).length ≤ 100 := fun hcon =>
                hc (List.drop_eq_nil_of_le hcon)
              simp only [List.length_drop, List.length_cons, Bool.false_eq_true,
                if_false]
              simp only [List.length_cons] at h100
              omega

/-- C7: batch embedding of N >= 1 texts visits the `texts[i:i+100]` slices,
which partition the input into `ceil(N/100) = (N + 99) / 100` groups of at
most 100 each, embeds every text in order, and performs the rate-limit
sleep exactly `ceil(N/100) - 1` times, i.e. after every group except the
last. -/
theorem batch_embedding_groups_and_sleeps (embedOne : String → Option (List ℚ))
    (texts : List String) (h : texts ≠ []) :
    (batchGroups texts).length = (texts.length + 99) / 100 ∧
    (∀ g ∈ batchGroups texts, g.length ≤ 100) ∧
    (batchGroups texts).flatten = texts ∧
    (generate_batch_embeddings embedOne texts).1 =
      texts.map (generate_embedding embedOne) ∧
    (generate_batch_embeddings embedOne texts).2 = (texts.length + 99) / 100 - 1 := by
  refine ⟨batchGroups_length texts.length texts le_rfl,
    batchGroups_le100 texts.length texts le_rfl,
    batchGroups_flatten texts.length texts le_rfl,
    (generate_batch_embeddings_spec embedOne texts.length texts le_rfl).1, ?_⟩
  rw [(generate_batch_embeddings_spec embedOne texts.length texts le_rfl).2, if_neg h]

/-- Concrete batch of 250 texts for the C7 witness. -/
def texts250 : List String := List.replicate 250 "political text chunk"

/-- Witness for C7 at a concrete list of 250 texts. -/
theorem batch_embedding_groups_and_sleeps_witness :
    (batchGroups texts250).length = (texts250.length + 99) / 100 ∧
    (∀ g ∈ batchGroups texts250, g.length ≤ 100) ∧
    (batchGroups texts250).flatten = texts250 ∧
    (generate_batch_embeddings (fun _ => none) texts250).1 =
      texts250.map (generate_embedding (fun _ => none)) ∧
    (generate_batch_embeddings (fun _ => none) texts250).2 =
      (texts250.length + 99) / 100 - 1 :=
  batch_embedding_groups_and_sleeps (fun _ => none) texts250 (by decide)

/-! ## Persistence collaborator (src/database/db_operations.py)

The database session is an explicit store of source rows.  Exceptions
raised by SQLAlchemy (constructor or commit failures) are environment
booleans / `Option`-valued functions; the operations' `except` handlers
roll back, so a failing call leaves the store unchanged. -/

/-- The part of a raw source dict the persistence claims depend on. -/
structure SourceData where
  source_url : String
  title : String
  raw_content : String
deriving DecidableEq

/-- One persisted row of the sources table. -/
structure SourceRow where
  id : Nat
  source_url : String
deriving DecidableEq

/-- The sources table plus an id generator. -/
structure SourcesStore where
  sources : List SourceRow
  nextId : Nat
deriving DecidableEq

/-- Embedding of `DatabaseOperations.save_source`: if a row with the same
`source_url` exists, return its id and leave the store unchanged;
otherwise insert and return the new id.  `insertOk = false` models an
exception from the insert/commit, whose handler rolls back and returns
the none sentinel. -/
def save_source (insertOk : Bool) (store : SourcesStore) (sourceData : SourceData) :
    Option Nat × SourcesStore :=
  match store.sources.find? (fun row => row.source_url == sourceData.source_url) with
  | some existing => (some existing.id, store)
  | none =>
      if insertOk then
        (some store.nextId,
         ⟨store.sources ++ [⟨store.nextId, sourceData.source_url⟩], store.nextId + 1⟩)
      else (none, store)

/-- The loop of `DatabaseOperations.save_chunks`: convert each chunk dict
to a row (`mkRow c = none` models a raised `Chunk(**chunk_copy)`), add it
to the pending session and count it; a raise abandons the whole loop. -/
def save_chunks_go (mkRow : ChunkRec × TagsData → Option (ChunkRec × TagsData)) :
    List (ChunkRec × TagsData) → List (ChunkRec × TagsData) → Nat →
      Option (List (ChunkRec × TagsData) × Nat)
  | [], pending, savedCount => some (pending, savedCount)
  | c :: cs, pending, savedCount =>
      match mkRow c with
      | some row => save_chunks_go mkRow cs (pending ++ [row]) (savedCount + 1)
      | none => none

/-- Embedding of `DatabaseOperations.save_chunks`: one commit for the whole
pending list (`commitOk = false` models a commit exception); any exception
rolls back and returns 0. -/
def save_chunks (mkRow : ChunkRec × TagsData → Option (ChunkRec × TagsData))
    (commitOk : Bool) (store chunks : List (ChunkRec × TagsData)) :
    Nat × List (ChunkRec × TagsData) :=
  match save_chunks_go mkRow chunks [] 0 with
  | none => (0, store)
  | some (pending, savedCount) =>
      if commitOk then (savedCount, store ++ pending) else (0, store)

/-- One row of the scraping_logs table as written by
`DatabaseOperations.log_scraping`. -/
structure LogEntry where
  source_url : String
  scraper_type : String
  status : String
  items_scraped : Nat
  error_message : Option String
deriving DecidableEq

/-! ## Pipeline Controller (src/main.py) -/

/-- External collaborators of
`DataScrapingOrchestrator._process_single_source`.  `normalize` may raise
(the only step of the model whose exception reaches the per-source
handler); `tagChunk` models the body of the per-chunk `try` (tagging plus
entity extraction); `embedBatch = none` models `skip_embeddings`;
`saveChunks` returns the persisted count and never raises. -/
structure PipelineEnv where
  normalize : SourceData → Except String SourceData
  saveSource : SourceData → Option Nat
  tagChunk : String → Except String TagsData
  embedBatch : Option (List (ChunkRec × TagsData) → Except String (List (ChunkRec × TagsData)))
  saveChunks : List (ChunkRec × TagsData) → Nat

/-- Step 4 of `_process_single_source`: tag each chunk independently; a
chunk whose per-chunk `try` raises is dropped and processing continues. -/
def tagChunks (env : PipelineEnv) (chunks : List ChunkRec) : List (ChunkRec × TagsData) :=
  chunks.filterMap (fun c =>
    match env.tagChunk c.text with
    | .ok tags => some (c, tags)
    | .error _ => none)

/-- Step 5 of `_process_single_source`: the batch embedding call; its
exception is caught, leaving the tagged chunks as they were. -/
def embedStage (env : PipelineEnv) (tagged : List (ChunkRec × TagsData)) :
    List (ChunkRec × TagsData) :=
  match env.embedBatch with
  | none => tagged
  | some f =>
      match f tagged with
      | .ok embedded => embedded
      | .error _ => tagged

/-- Embedding of `DataScrapingOrchestrator._process_single_source`: the
first component is the Python return value (`none` for the two `return
None` paths), the second lists the `log_scraping` calls in order. -/
def processSingleSource (env : PipelineEnv) (chunkSize : Nat) (scraperType : String)
    (sourceData : SourceData) : Option Nat × List LogEntry :=
  match env.normalize sourceData with
  | .error e => (none, [⟨sourceData.source_url, scraperType, "failed", 0, some e⟩])
  | .ok sd =>
      match env.saveSource sd with
      | none => (none, [])
      | some sourceId =>
          if sd.raw_content = "" ∨ trimmedLength sd.raw_content < 50 then (some 0, [])
          else
            let chunks := chunk_text chunkSize sd.raw_content (toString sourceId)
            if chunks = [] then (some 0, [])
            else
              let tagged := tagChunks env chunks
              if tagged = [] then (some 0, [])
              else
                let finalChunks := embedStage env tagged
                let savedCount := env.saveChunks finalChunks
                (some savedCount,
                 [⟨sd.source_url, scraperType, "success", savedCount, none⟩])

/-! ## Theorems about the persistence collaborator -/

theorem save_chunks_go_spec (mkRow : ChunkRec × TagsData → Option (ChunkRec × TagsData)) :
    ∀ (chunks pending : List (ChunkRec × TagsData)) (savedCount : Nat),
      save_chunks_go mkRow chunks pending savedCount =
        (chunks.mapM mkRow).map
          (fun rows => (pending ++ rows, savedCount + chunks.length)) := by
  intro chunks
  induction chunks with
  | nil =>
      intro pending savedCount
      rw [List.mapM_nil]
      simp [save_chunks_go]
  | cons c cs ih =>
      intro pending savedCount
      rw [List.mapM_cons]
      cases hm : mkRow c with
      | none => simp [save_chunks_go, hm]
      | some row =>
          simp only [save_chunks_go, hm]
          rw [ih]
          cases hcs : cs.mapM mkRow with
          | none => simp [hcs]
          | some rows =>
              simp only [hcs, Option.map_some', Option.some_bind, Option.bind_eq_bind,
                Option.pure_def, Option.map_eq_map]
              simp only [Option.map_some', List.append_assoc, List.singleton_append,
                List.length_cons, Option.some_inj, Prod.mk.injEq]
              exact ⟨trivial, by omega⟩

theorem mapM_some_length (mkRow : ChunkRec × TagsData → Option (ChunkRec × TagsData)) :
    ∀ (chunks rows : List (ChunkRec × TagsData)),
      chunks.mapM mkRow = some rows → rows.length = chunks.length := by
  intro chunks
  induction chunks with
  | nil =>
      intro rows h
      rw [List.mapM_nil] at h
      simp only [Option.pure_def, Option.some_inj] at h
      simp [← h]
  | cons c cs ih =>
      intro rows h
      rw [List.mapM_cons] at h
      cases hm : mkRow c with
      | none => rw [hm] at h; simp at h
      | some row =>
          rw [hm] at h
          simp only [Option.some_bind, Option.bind_eq_bind] at h
          cases hcs : cs.mapM mkRow with
          | none => rw [hcs] at h; simp at h
          | some rest =>
              rw [hcs] at h
              simp only [Option.some_bind, Option.pure_def, Option.some_inj] at h
              rw [← h]
              simp [ih rest hcs]

/-- C9: `save_chunks` is all-or-nothing: it returns either the length of
the input list, having appended exactly the converted rows of every chunk
to the store in one commit, or 0 with the store unchanged — never a strict
partial subset. -/
theorem save_chunks_all_or_nothing
    (mkRow : ChunkRec × TagsData → Option (ChunkRec × TagsData)) (commitOk : Bool)
    (store chunks : List (ChunkRec × TagsData)) :
    (∃ rows, chunks.mapM mkRow = some rows ∧ rows.length = chunks.length ∧
      commitOk = true ∧
      save_chunks mkRow commitOk store chunks = (chunks.length, store ++ rows)) ∨
    save_chunks mkRow commitOk store chunks = (0, store) := by
  unfold save_chunks
  rw [save_chunks_go_spec]
  cases hm : chunks.mapM mkRow with
  | none => right; rfl
  | some rows =>
      cases hcommit : commitOk
      · right; simp
      · left
        exact ⟨rows, rfl, mapM_some_length mkRow chunks rows hm, rfl, by simp⟩

/-- Fresh empty store for the C6 witness. -/
def store0 : SourcesStore := ⟨[], 0⟩

/-- Concrete source record for the C6 witness. -/
def sdA : SourceData := ⟨"http://a", "title a", "content a"⟩

/-- C6: calling `save_source` twice with records sharing one `source_url`
(over a store whose rows are unique per url, as the schema's unique
constraint guarantees) returns the same identity both times, never the
none sentinel, and leaves exactly one stored row for that url. -/
theorem save_source_idempotent (store : SourcesStore) (sd sd' : SourceData)
    (hurl : sd.source_url = sd'.source_url)
    (hinv : (store.sources.filter
      (fun row => row.source_url == sd.source_url)).length ≤ 1) :
    (save_source true store sd).1 = (save_source true (save_source true store sd).2 sd').1 ∧
    (save_source true store sd).1 ≠ none ∧
    (((save_source true (save_source true store sd).2 sd').2).sources.filter
      (fun row => row.source_url == sd.source_url)).length = 1 := by
  have hp : (fun row : SourceRow => row.source_url == sd'.source_url) =
      (fun row : SourceRow => row.source_url == sd.source_url) := by
    funext row; rw [hurl]
  cases hfind : store.sources.find? (fun row => row.source_url == sd.source_url) with
  | some r =>
      have hrmem : r ∈ store.sources := List.mem_of_find?_eq_some hfind
      have hrp := List.find?_some hfind
      have hmemf : r ∈ store.sources.filter (fun row => row.source_url == sd.source_url) :=
        List.mem_filter.mpr ⟨hrmem, hrp⟩
      have hlen1 : (store.sources.filter
          (fun row => row.source_url == sd.source_url)).length = 1 := by
        have hpos := List.length_pos_of_mem hmemf
        omega
      simp only [save_source, hp, hfind]
      refine ⟨by simp, by simp, ?_⟩
      exact hlen1
  | none =>
      have hnone : ∀ row ∈ store.sources, ¬ (row.source_url == sd.source_url) = true :=
        List.find?_eq_none.mp hfind
      have hfilter0 : store.sources.filter
          (fun row => row.source_url == sd.source_url) = [] :=
        List.filter_eq_nil_iff.mpr hnone
      have hfind2 : (store.sources ++
            [({ id := store.nextId, source_url := sd.source_url } : SourceRow)]).find?
          (fun row => row.source_url == sd.source_url) =
          some { id := store.nextId, source_url := sd.source_url } := by
        rw [List.find?_append, hfind]
        simp [List.find?]
      simp only [save_source, hp, hfind]
      simp only [if_true]
      simp only [hfind2]
      refine ⟨by simp, by simp, ?_⟩
      rw [List.filter_append, hfilter0]
      simp

/-- Witness for C6 on an empty store and a concrete record. -/
theorem save_source_idempotent_witness :
    (save_source true store0 sdA).1 =
      (save_source true (save_source true store0 sdA).2 sdA).1 ∧
    (save_source true store0 sdA).1 ≠ none ∧
    (((save_source true (save_source true store0 sdA).2 sdA).2).sources.filter
      (fun row => row.source_url == sdA.source_url)).length = 1 :=
  save_source_idempotent store0 sdA sdA rfl (by decide)

/-! ## Theorems about the Pipeline Controller -/

/-- Store already holding the url of `sdDup`, for the C5 counterexample. -/
def dupStore : SourcesStore := ⟨[⟨7, "http://u"⟩], 8⟩

/-- A re-scraped source whose url is already stored; its content is the
three-sentence text `t3` (56 characters, chunkable). -/
def sdDup : SourceData := ⟨"http://u", "title u", t3⟩

/-- Environment whose persistence is backed by `dupStore` and whose model
calls always succeed. -/
def envDup : PipelineEnv where
  normalize := fun sd => .ok sd
  saveSource := fun sd => (save_source true dupStore sd).1
  tagChunk := fun _ => .ok get_default_tags
  embedBatch := none
  saveChunks := fun l => l.length

/-- C5 counterexample: for a source whose url already exists in the store,
`save_source` returns the existing id (7), not the none sentinel, and the
Controller does not stop at Succeeded(0): it re-segments, re-tags and
re-persists the source (2 chunks) and writes a success log entry. -/
theorem save_source_existing_cex :
    (save_source true dupStore sdDup).1 = some 7 ∧
    (save_source true dupStore sdDup).1 ≠ none ∧
    processSingleSource envDup 4 "media" sdDup =
      (some 2, [⟨"http://u", "media", "success", 2, none⟩]) := by decide

/-- C5 amended: when the `source_url` already exists, `save_source` returns
the EXISTING id (some, not none) with the store unchanged, and the
Controller re-processes the source; the short-circuit before segmentation
happens exactly when `save_source` returns the none sentinel (a save
failure), and it returns None — not Succeeded(0) — with no log entry and
no further processing. -/
theorem save_source_existing_and_short_circuit :
    (∀ (insertOk : Bool) (store : SourcesStore) (sd : SourceData) (row : SourceRow),
      store.sources.find? (fun r => r.source_url == sd.source_url) = some row →
      save_source insertOk store sd = (some row.id, store)) ∧
    (∀ (env : PipelineEnv) (chunkSize : Nat) (scraperType : String) (sd sd' : SourceData),
      env.normalize sd = Except.ok sd' → env.saveSource sd' = none →
      processSingleSource env chunkSize scraperType sd = (none, [])) := by
  constructor
  · intro insertOk store sd row hfind
    unfold save_source
    rw [hfind]
  · intro env chunkSize scraperType sd sd' hnorm hsave
    simp only [processSingleSource, hnorm, hsave]

/-- Store and record for the C5 amended witness. -/
def storeW : SourcesStore := ⟨[⟨3, "http://w"⟩], 4⟩

/-- Record whose url matches the row of `storeW`. -/
def sdW : SourceData := ⟨"http://w", "title w", "short"⟩

/-- Witness for the amended C5: the duplicate url in `storeW` yields the
existing id 3 and an unchanged store. -/
theorem save_source_existing_and_short_circuit_witness :
    save_source true storeW sdW = (some 3, storeW) :=
  save_source_existing_and_short_circuit.1 true storeW sdW ⟨3, "http://w"⟩ (by decide)

/-- A 30-character-content source, the SucceededEmpty scenario. -/
def sdShort : SourceData := ⟨"http://s", "title s", "aaaaaaaaaaaaaaaaaaaaaaaaaaaaaa"⟩

/-- Environment whose collaborators all succeed. -/
def envOk : PipelineEnv where
  normalize := fun sd => .ok sd
  saveSource := fun _ => some 1
  tagChunk := fun _ => .ok get_default_tags
  embedBatch := none
  saveChunks := fun l => l.length

/-- C1 counterexample: a freshly saved source whose content has length 30
terminates as Succeeded(0) with ZERO log entries — the short-content
return path never calls `log_scraping`, so no success log entry with
`items_scraped = 0` is written. -/
theorem single_log_short_content_cex :
    sdShort.raw_content.length = 30 ∧
    processSingleSource envOk 500 "media" sdShort = (some 0, []) ∧
    (processSingleSource envOk 500 "media" sdShort).2.length = 0 := by decide

/-- C1 amended: each source produces AT MOST one log entry: exactly one
failed entry when normalization raises, exactly one success entry on the
full path that persists chunks, and NO entry on the save-failure return or
on the SucceededEmpty early returns; in particular short content yields
Succeeded(0) with zero log entries. -/
theorem logging_policy (env : PipelineEnv) (chunkSize : Nat) (scraperType : String)
    (sd : SourceData) :
    (processSingleSource env chunkSize scraperType sd).2.length ≤ 1 ∧
    (∀ e, env.normalize sd = Except.error e →
      processSingleSource env chunkSize scraperType sd =
        (none, [⟨sd.source_url, scraperType, "failed", 0, some e⟩])) ∧
    (∀ sd' sourceId, env.normalize sd = Except.ok sd' →
      env.saveSource sd' = some sourceId →
      trimmedLength sd'.raw_content < 50 →
      processSingleSource env chunkSize scraperType sd = (some 0, [])) ∧
    (∀ sd' sourceId, env.normalize sd = Except.ok sd' →
      env.saveSource sd' = some sourceId →
      ¬ (sd'.raw_content = "" ∨ trimmedLength sd'.raw_content < 50) →
      chunk_text chunkSize sd'.raw_content (toString sourceId) ≠ [] →
      tagChunks env (chunk_text chunkSize sd'.raw_content (toString sourceId)) ≠ [] →
      processSingleSource env chunkSize scraperType sd =
        (some (env.saveChunks (embedStage env
            (tagChunks env (chunk_text chunkSize sd'.raw_content (toString sourceId))))),
         [⟨sd'.source_url, scraperType, "success",
           env.saveChunks (embedStage env
             (tagChunks env (chunk_text chunkSize sd'.raw_content (toString sourceId)))),
           none⟩])) := by
  refine ⟨?_, ?_, ?_, ?_⟩
  · cases hnorm : env.normalize sd with
    | error e => simp [processSingleSource, hnorm]
    | ok sd' =>
        cases hsave : env.saveSource sd' with
        | none => simp [processSingleSource, hnorm, hsave]
        | some sourceId =>
            simp only [processSingleSource, hnorm, hsave]
            split
            · simp
            · split
              · simp
              · split
                · simp
                · simp
  · intro e hnorm
    simp only [processSingleSource, hnorm]
  · intro sd' sourceId hnorm hsave hshort
    simp only [processSingleSource, hnorm, hsave]
    rw [if_pos (Or.inr hshort)]
  · intro sd' sourceId hnorm hsave hcontent hchunks htagged
    simp only [processSingleSource, hnorm, hsave]
    rw [if_neg hcontent, if_neg hchunks, if_neg htagged]

/-- Environment whose normalization step raises, for the C1 witness. -/
def envNormFail : PipelineEnv where
  normalize := fun _ => .error "boom"
  saveSource := fun _ => some 1
  tagChunk := fun _ => .ok get_default_tags
  embedBatch := none
  saveChunks := fun l => l.length

/-- Witness for the amended C1: a normalization failure writes exactly one
failed log entry. -/
theorem logging_policy_witness :
    processSingleSource envNormFail 500 "media" sdShort =
      (none, [⟨sdShort.source_url, "media", "failed", 0, some "boom"⟩]) :=
  (logging_policy envNormFail 500 "media" sdShort).2.1 "boom" rfl

end PoliticalRag
